import Mathlib

/-!
Verification of the story/test-case management application: the story
synchronizer, the test-case generator client, the report statistics and the
deletion cascade, each translated from the TypeScript source into executable
Lean definitions, with theorems settling the documented properties.
-/

namespace TestMgmt

/-! ## JavaScript string helpers

The source leans on JavaScript truthiness for defaulting: `a || b` yields b
when a is undefined, null or the empty string. `jsOr` is that operator for
an optional string. -/

/-- The JavaScript expression `v || dflt` for a string-or-absent value: an
absent or empty string is falsy and yields the default. -/
def jsOr (v : Option String) (dflt : String) : String :=
  match v with
  | some s => if s == "" then dflt else s
  | none => dflt

/-- Truthiness of an optional string: present and non-empty. -/
def truthyStr (v : Option String) : Bool :=
  match v with
  | some s => s != ""
  | none => false

/-- The whitespace set the trims of this model handle (the strings of this
development only ever carry these). -/
def isWS (c : Char) : Bool := c == ' ' || c == '\t' || c == '\n' || c == '\r'

/-- The JavaScript call `s.trim()`, transcribed over the character list so
that it evaluates by kernel reduction. -/
def jsTrim (s : String) : String :=
  ⟨((s.data.dropWhile isWS).reverse.dropWhile isWS).reverse⟩

/-- The JavaScript call `parts.join(sep)`, transcribed over the list so that
it evaluates by kernel reduction. -/
def joinSep (sep : String) : List String → String
  | [] => ""
  | [p] => p
  | p :: rest => p ++ sep ++ joinSep sep rest

/-- The JavaScript call `c.toLowerCase()` on one character: the sources only
ever lowercase ASCII priority and status labels. -/
def jsToLowerChar (c : Char) : Char :=
  if 'A' ≤ c ∧ c ≤ 'Z' then Char.ofNat (c.toNat + 32) else c

/-- The JavaScript call `s.toLowerCase()`. -/
def jsToLower (s : String) : String := ⟨s.data.map jsToLowerChar⟩

/-- Case-insensitive equality of two titles, the comparison the spec claims
the synchronizer uses: equal once both sides are lowercased. -/
def caseInsensitiveEq (a b : String) : Bool := jsToLower a == jsToLower b

/-- The JavaScript call `s.replace(' ', '-')`: only the first occurrence of
a space is replaced, unlike Lean's String.replace which replaces all. -/
def replaceFirstSpaceAux : List Char → List Char
  | [] => []
  | c :: rest => if c = ' ' then '-' :: rest else c :: replaceFirstSpaceAux rest

/-- String wrapper of replaceFirstSpaceAux. -/
def replaceFirstSpace (s : String) : String :=
  ⟨replaceFirstSpaceAux s.data⟩

/-! ## Rich-text (Atlassian Document Format) unwrapping

extractTextFromJiraContent, src/unnamed/part_001 lines 138 to 158; the
identical function also appears in src/src/components/TestCases.tsx. -/

/-- A value in the shape a Jira issue description arrives in: a plain string,
or a document node with optional type and text fields and a list of child
nodes. A missing content field and a present-but-empty array lead to the same
output everywhere in the source, so both are modelled as the empty list. -/
inductive ADF where
  | strVal (s : String)
  | node (ty : Option String) (text : Option String) (children : List ADF)

mutual

/-- The inner worker extractText of extractTextFromJiraContent: the text
parts one node pushes, in order. A node contributes its text exactly when
its type is the string "text" and its text field is truthy (present and
non-empty); failing that, its children are walked. A plain string inside a
content array has neither a type nor a content property and contributes
nothing. -/
def extractParts : ADF → List String
  | .strVal _ => []
  | .node ty text children =>
    if ty == some "text" && truthyStr text then [text.getD ""]
    else extractPartsList children

/-- extractParts over a content array, in document order. -/
def extractPartsList : List ADF → List String
  | [] => []
  | n :: rest => extractParts n ++ extractPartsList rest

end

/-- The fixed placeholder string of the source. -/
def noDescription : String := "No description available"

/-- extractTextFromJiraContent. A plain string input is returned unchanged; a
null or undefined input (modelled as none) yields the placeholder; an object
whose content field holds an array has its text parts joined with single
spaces and trimmed, with the placeholder when that comes out empty; any other
shape yields the placeholder. The top level inspects only the content field,
never type or text. -/
def extractTextFromJiraContent : Option ADF → String
  | none => noDescription
  | some (.strVal s) => s
  | some (.node _ _ children) =>
    let joined := jsTrim (joinSep " " (extractPartsList children))
    if joined == "" then noDescription else joined

/-! ## Data model

Rows of the relational store, from src/src/integrations/supabase/types.ts
and the shapes the components read and write. Row identity is the database
primary key; the database generates it on insert, modelled as a Nat issued
from a fresh-id counter. Project ids stay strings, as only equality on them
is ever used. -/

/-- A user_stories row, in the fields the synchronizer touches. -/
structure Story where
  id : Nat
  project_id : String
  title : String
  description : String
  acceptance_criteria : String
  priority : String
  status : String
  deriving DecidableEq, Repr

/-- A test_cases row, in the fields generation and deletion touch. Steps are
one newline-delimited string, exactly as stored. -/
structure TestCaseRow where
  project_id : String
  user_story_id : Option Nat
  title : String
  description : String
  steps : String
  expected_result : String
  priority : String
  status : String
  deriving DecidableEq, Repr

/-! ## Story synchronizer

syncFromIntegrations, src/unnamed/part_001 lines 289 to 468. Two provider
blocks (Jira, Azure DevOps) run in sequence, each wrapped in its own
try/catch; a provider whose fetch fails is logged and skipped. Each fetched
item is looked up by project id and exact title via a .single() query, which
yields a row only when exactly one matches; a match is updated in place by
id, otherwise a fresh row is inserted. -/

/-- One story as the Jira provider integration returns it, in the fields the
sync loop reads (the feed is assembled in
src/supabase/functions/jira-integration/index.ts). Optional fields model
object properties that may be absent. -/
structure JiraItem where
  title : String
  description : Option ADF
  acceptanceCriteria : Option String
  priority : Option String
  status : Option String

/-- One story as the Azure DevOps provider integration returns it, in the
fields the sync loop reads. -/
structure AzureItem where
  title : String
  description : String
  acceptanceCriteria : Option String
  priority : Option String
  status : Option String

/-- A fetched item of either provider: the two sync loops share their
matching logic but map fields differently. -/
inductive FeedItem where
  | jira (item : JiraItem)
  | azure (item : AzureItem)

/-- The fetched title, used verbatim for matching and insertion by both
provider loops. -/
def FeedItem.title : FeedItem → String
  | .jira i => i.title
  | .azure i => i.title

/-- The description written on update and on insert: the Jira loop unwraps
the rich-text document, the Azure loop stores the string as is. -/
def FeedItem.descriptionText : FeedItem → String
  | .jira i => extractTextFromJiraContent i.description
  | .azure i => i.description

/-- The acceptance criteria written on update and on insert: both loops
default an absent or empty value to the empty string. -/
def FeedItem.acceptanceText : FeedItem → String
  | .jira i => jsOr i.acceptanceCriteria ""
  | .azure i => jsOr i.acceptanceCriteria ""

/-- The priority written on update and on insert: the Jira loop lowercases
before defaulting to medium, the Azure loop defaults as is. -/
def FeedItem.priorityText : FeedItem → String
  | .jira i => jsOr (i.priority.map jsToLower) "medium"
  | .azure i => jsOr i.priority "medium"

/-- The status written on update and on insert: the Jira loop lowercases and
replaces the first space with a dash before defaulting to draft, the Azure
loop defaults as is. -/
def FeedItem.statusText : FeedItem → String
  | .jira i => jsOr (i.status.map fun t => replaceFirstSpace (jsToLower t)) "draft"
  | .azure i => jsOr i.status "draft"

/-- The in-place update of a matched story: description, acceptance
criteria, priority and status are overwritten; id, project and title are
untouched. -/
def updateStoryFields (s : Story) (it : FeedItem) : Story :=
  { s with
    description := it.descriptionText
    acceptance_criteria := it.acceptanceText
    priority := it.priorityText
    status := it.statusText }

/-- The fresh row inserted for an unmatched item: the target project, the
fetched title and the same mapped fields, under a database-generated id. -/
def insertStoryRow (proj : String) (fresh : Nat) (it : FeedItem) : Story :=
  { id := fresh
    project_id := proj
    title := it.title
    description := it.descriptionText
    acceptance_criteria := it.acceptanceText
    priority := it.priorityText
    status := it.statusText }

/-- The predicate of the existence query: same project, exactly equal title
(the .eq filters of the source are case-sensitive equality). -/
def storyMatches (proj t : String) (s : Story) : Bool :=
  s.project_id == proj && s.title == t

/-- The .single() existence query: the matching row when exactly one story
of the project carries the title, otherwise null (on zero rows and on two
or more rows alike, .single() reports an error and the destructured data is
null). -/
def findSingle (l : List Story) (proj t : String) : Option Story :=
  match l.filter (storyMatches proj t) with
  | [s] => some s
  | _ => none

/-- How many stories of the project carry exactly this title. -/
def matchCount (l : List Story) (proj t : String) : Nat :=
  l.countP (storyMatches proj t)

/-- The mutable state one synchronization run threads: the user_stories
table, the fresh-id counter of the database, and the syncedCount
accumulator. -/
structure SyncState where
  stories : List Story
  nextId : Nat
  synced : Nat
  deriving DecidableEq, Repr

/-- The body of the per-item loop: look the title up in the target project;
update the matched row by id when the lookup returns one, else insert a
fresh row; count the row as touched either way. -/
def syncStep (proj : String) (st : SyncState) (it : FeedItem) : SyncState :=
  match findSingle st.stories proj it.title with
  | some ex =>
    { st with
      stories := st.stories.map fun s => if s.id == ex.id then updateStoryFields s it else s
      synced := st.synced + 1 }
  | none =>
    { stories := st.stories ++ [insertStoryRow proj st.nextId it]
      nextId := st.nextId + 1
      synced := st.synced + 1 }

/-- One provider's loop over its fetched items, in feed order. -/
def syncFeed (proj : String) : SyncState → List FeedItem → SyncState
  | st, [] => st
  | st, it :: rest => syncFeed proj (syncStep proj st it) rest

/-- One full synchronization run: the Jira provider block, then the Azure
DevOps block. none stands for a provider that is not configured or not
enabled; Except.error for a provider whose call failed, which the source
catches, logs and skips without touching the state; Except.ok for a
successful fetch, whose items are reconciled in order. -/
def syncFromIntegrations (proj : String) (st : SyncState)
    (jiraResult : Option (Except Unit (List JiraItem)))
    (azureResult : Option (Except Unit (List AzureItem))) : SyncState :=
  let st1 := match jiraResult with
    | some (Except.ok feed) => syncFeed proj st (feed.map FeedItem.jira)
    | some (Except.error _) => st
    | none => st
  match azureResult with
  | some (Except.ok feed) => syncFeed proj st1 (feed.map FeedItem.azure)
  | some (Except.error _) => st1
  | none => st1

/-! ## Test-case generator

The edge function src/supabase/functions/generate-test-cases/index.ts parses
the completion text with JSON.parse and maps the result; a parse failure (or
a parsed value that is not an array, on which .map throws the same way) is
answered with a 500 carrying the raw content. The client generateTestCases,
src/unnamed/part_001 lines 543 to 670, persists only on a success response:
it deletes the existing test cases of the (project, story) pair, then
bulk-inserts the newly generated set. -/

/-- The statuses the TestCase interface declares, src/unnamed/part_001 lines
48 to 59: the first value is the not-yet-executed default. -/
def testCaseStatusValues : List String := ["not-run", "passed", "failed", "blocked"]

/-- A parsed JSON value, as JSON.parse would return it (numbers as integers:
no claim touches fractional payloads). -/
inductive Json where
  | null
  | bool (b : Bool)
  | num (n : Int)
  | str (s : String)
  | arr (elems : List Json)
  | obj (fields : List (String × Json))

/-- The steps property of one generated test case: the source accepts an
array of strings (joined with newlines) or a single string. -/
inductive StepsField where
  | arr (steps : List String)
  | str (text : String)
  deriving DecidableEq, Repr

/-- One element of data.testCases as the client reads it: every property may
be absent. -/
structure GenTC where
  title : Option String
  name : Option String
  description : Option String
  steps : Option StepsField
  expectedResult : Option String
  expected : Option String
  priority : Option String
  deriving DecidableEq, Repr

/-- The string a property of a parsed object holds, when the object has it
and it is a string (the first binding wins, as with find). -/
def getStrField (j : Json) (k : String) : Option String :=
  match j with
  | .obj fields =>
    match (fields.find? fun f => f.1 == k).map (fun f => f.2) with
    | some (Json.str s) => some s
    | _ => none
  | _ => none

/-- The steps property of a parsed object, as the client will read it. -/
def getStepsField (j : Json) (k : String) : Option StepsField :=
  match j with
  | .obj fields =>
    match (fields.find? fun f => f.1 == k).map (fun f => f.2) with
    | some (Json.arr l) => some (StepsField.arr (l.filterMap fun e => match e with
        | Json.str s => some s
        | _ => none))
    | some (Json.str s) => some (StepsField.str s)
    | _ => none
  | _ => none

/-- One parsed array element, read into the properties the client uses. -/
def decodeGenTC (j : Json) : GenTC :=
  { title := getStrField j "title"
    name := getStrField j "name"
    description := getStrField j "description"
    steps := getStepsField j "steps"
    expectedResult := getStrField j "expectedResult"
    expected := getStrField j "expected"
    priority := getStrField j "priority" }

/-- What the edge function answers the client: a success body with the
generated test cases, or the parse-failure 500 whose body carries the raw
completion text, or a non-2xx relay of the provider error. -/
inductive GenResponse where
  | ok (testCases : List GenTC)
  | parseFailure (rawContent : String)
  | apiError (httpStatus : Nat)

/-- The parse branch of the edge function (lines 207 to 262): JSON.parse of
the completion text (none models a parse throw), then .map over the result.
Only a parsed array reaches the success response; a non-array value makes
.map throw into the same catch, so every non-array outcome is the 500 whose
body surfaces the raw content. -/
def handleParsedCompletion (content : String) (parsed : Option Json) : GenResponse :=
  match parsed with
  | some (Json.arr elems) => GenResponse.ok (elems.map decodeGenTC)
  | some _ => GenResponse.parseFailure content
  | none => GenResponse.parseFailure content

/-- The newline-joined steps string: testCase.steps joined when it is an
array, stored as is when a string, the empty string when absent. -/
def stepsText : Option StepsField → String
  | some (.arr l) => joinSep "\n" l
  | some (.str s) => s
  | none => ""

/-- The row the client builds for one generated test case
(src/unnamed/part_001 lines 621 to 630): every field defaulted with
JavaScript or-chains, the priority lowercased, the status the literal the
source writes. -/
def toInsertRow (projectId : String) (storyId : Nat) (tc : GenTC) : TestCaseRow :=
  { project_id := projectId
    user_story_id := some storyId
    title := jsOr tc.title (jsOr tc.name "Test Case")
    description := jsOr tc.description ""
    steps := stepsText tc.steps
    expected_result := jsOr tc.expectedResult (jsOr tc.expected "")
    priority := jsToLower (jsOr tc.priority "medium")
    status := "draft" }

/-- The delete filter of regeneration and the insert rows it is followed by:
a row belongs to the story when its user_story_id and project_id both
match. -/
def belongsToStory (projectId : String) (storyId : Nat) (r : TestCaseRow) : Bool :=
  r.user_story_id == some storyId && r.project_id == projectId

/-- The client write-back on a generation response: on success (the source
checks data.success and data.testCases, and a present array passes even when
empty) the test cases of the (project, story) pair are deleted, then the
newly generated rows are appended; any other response leaves the table
untouched. -/
def persistGenerated (db : List TestCaseRow) (projectId : String) (storyId : Nat)
    (resp : GenResponse) : List TestCaseRow :=
  match resp with
  | .ok tcs => (db.filter fun r => !belongsToStory projectId storyId r)
      ++ tcs.map (toInsertRow projectId storyId)
  | .parseFailure _ => db
  | .apiError _ => db

/-! ## User story deletion

deleteUserStory, src/unnamed/part_001 lines 672 to 705: first every
test_cases row whose user_story_id references the story is deleted (no
project filter), then the user_stories row itself; an error in the first
step throws before the second runs. -/

/-- The two tables deletion touches. -/
structure AppDB where
  userStories : List Story
  testCases : List TestCaseRow
  deriving DecidableEq, Repr

/-- Step one: delete every test case referencing the story. -/
def deleteTestCasesForStory (db : AppDB) (storyId : Nat) : AppDB :=
  { db with testCases := db.testCases.filter fun r => !(r.user_story_id == some storyId) }

/-- Step two: delete the story row itself. -/
def deleteStoryRow (db : AppDB) (storyId : Nat) : AppDB :=
  { db with userStories := db.userStories.filter fun s => !(s.id == storyId) }

/-- The whole deletion: test cases first, then the story. -/
def deleteUserStory (db : AppDB) (storyId : Nat) : AppDB :=
  deleteStoryRow (deleteTestCasesForStory db storyId) storyId

/-! ## Report statistics

The generate-test-report edge function, src/unnamed/part_002: after input
validation it counts statuses over the posted test cases and computes
passRate with toFixed(1), parsed back to a number for the statistics object.
The validations of the other request fields (project name, report type) do
not involve the test-case list and are outside this model. -/

/-- One posted test case, in the fields the statistics read. -/
structure ReportTC where
  title : String
  status : String
  priority : String
  deriving DecidableEq, Repr

/-- The statistics object of the response body. -/
structure ReportStats where
  totalTests : Nat
  passedTests : Nat
  failedTests : Nat
  blockedTests : Nat
  pendingTests : Nat
  passRate : ℚ
  deriving DecidableEq, Repr

/-- Number.prototype.toFixed(1) read back with parseFloat, on the exact
value: one decimal place, halves rounded up (away from zero on the
nonnegative values that arise here). -/
def toFixed1 (q : ℚ) : ℚ := (round (q * 10) : ℤ) / 10

/-- The statistics block (lines 80 to 86 and 229 to 238): the counts by
status and the guarded pass rate. -/
def reportStatistics (testCases : List ReportTC) : ReportStats :=
  let totalTests := testCases.length
  let passedTests := (testCases.filter fun tc => tc.status == "passed").length
  let failedTests := (testCases.filter fun tc => tc.status == "failed").length
  let blockedTests := (testCases.filter fun tc => tc.status == "blocked").length
  let pendingTests := (testCases.filter fun tc => tc.status == "pending").length
  { totalTests := totalTests
    passedTests := passedTests
    failedTests := failedTests
    blockedTests := blockedTests
    pendingTests := pendingTests
    passRate := if totalTests > 0 then toFixed1 ((passedTests : ℚ) / (totalTests : ℚ) * 100) else 0 }

/-- The handler path around the statistics: the input validation on the
test-case list (lines 49 and 71) rejects an empty list and a list of more
than 200 entries before any statistic is computed; otherwise the statistics
object is produced. -/
def generateTestReport (testCases : List ReportTC) : Except String ReportStats :=
  if testCases.length = 0 then Except.error "Test cases array is required"
  else if testCases.length > 200 then Except.error "Maximum 200 test cases allowed per request"
  else Except.ok (reportStatistics testCases)

/-- The pass-rate formula as the spec states it: passed over total times
100, rounded to one decimal place, and exactly 0 when total is 0. -/
def specPassRate (passed total : Nat) : ℚ :=
  if total = 0 then 0 else (round ((passed : ℚ) / (total : ℚ) * 100 * 10) : ℤ) / 10

/-! ## Work-item priority mapping

The azure-devops work-item transform, src/src/components/TestReport.tsx
lines 1315 to 1329: the numeric priority field is mapped to a three-tier
label. The outer JavaScript conditional tests truthiness, so a priority of 0
takes the outer default; every branch not naming 1, 2 or 3 yields medium. -/

/-- The priority label of one fetched work item; none models a missing
field. -/
def mapWorkItemPriority : Option Int → String
  | none => "medium"
  | some p =>
    if p = 0 then "medium"
    else if p = 1 then "high"
    else if p = 2 then "medium"
    else if p = 3 then "low"
    else "medium"

/-! ## Claim-side formulas for the rich-text unwrapping

Two declarative readings of the unwrapping, to compare with the source: the
collection the claim words (every text leaf contributes its text), and the
amended collection (only non-empty texts contribute, with the placeholder
replacing an empty result). -/

mutual

/-- The text-leaf collection as the claim words it: a node of type text
carrying a text field is a leaf and contributes that text; every other node
contributes the leaves of its children. -/
def claimLeafTexts : ADF → List String
  | .strVal _ => []
  | .node ty text children =>
    match text with
    | some t => if ty = some "text" then [t] else claimLeafTextsList children
    | none => claimLeafTextsList children

/-- claimLeafTexts over a content array, in document order. -/
def claimLeafTextsList : List ADF → List String
  | [] => []
  | n :: rest => claimLeafTexts n ++ claimLeafTextsList rest

end

/-- The extracted text as the claim words it: the leaf texts joined by
single spaces, trimmed. -/
def claimExtractedText (children : List ADF) : String :=
  jsTrim (joinSep " " (claimLeafTextsList children))

mutual

/-- The leaf collection of the amended reading: a node of type text with a
non-empty text contributes it; a node of type text whose text is empty or
missing, and every other node, contributes the leaves of its children. -/
def amendedLeafTexts : ADF → List String
  | .strVal _ => []
  | .node ty text children =>
    match text with
    | some t => if ty = some "text" ∧ t ≠ "" then [t] else amendedLeafTextsList children
    | none => amendedLeafTextsList children

/-- amendedLeafTexts over a content array, in document order. -/
def amendedLeafTextsList : List ADF → List String
  | [] => []
  | n :: rest => amendedLeafTexts n ++ amendedLeafTextsList rest

end

/-- The amended reading of the whole unwrapping: a plain string unchanged; a
null input the placeholder; a document the joined and trimmed non-empty leaf
texts, with the placeholder replacing an empty result. -/
def specAmendedExtract : Option ADF → String
  | none => noDescription
  | some (.strVal s) => s
  | some (.node _ _ children) =>
    let t := jsTrim (joinSep " " (amendedLeafTextsList children))
    if t = "" then noDescription else t

/-! ## Concrete rows, items and feeds for the closed statements -/

/-- An existing local story titled in lowercase. -/
def cexStory : Story :=
  { id := 0, project_id := "p1", title := "guest checkout", description := ""
    acceptance_criteria := "", priority := "medium", status := "draft" }

/-- A fetched Jira item whose title differs from cexStory only in case. -/
def cexItemUpper : FeedItem :=
  FeedItem.jira
    { title := "Guest Checkout", description := none, acceptanceCriteria := none
      priority := none, status := none }

/-- A fetched Jira item titled exactly like cexStory. -/
def cexItemExact : FeedItem :=
  FeedItem.jira
    { title := "guest checkout", description := none, acceptanceCriteria := none
      priority := none, status := none }

/-- A project holding one story titled "guest checkout". -/
def cexState1 : SyncState := { stories := [cexStory], nextId := 1, synced := 0 }

/-- A project holding two stories with the identical title "guest checkout",
a state the store permits (title uniqueness is convention, not a
constraint). -/
def cexState2 : SyncState :=
  { stories := [cexStory, { cexStory with id := 1 }], nextId := 2, synced := 0 }

/-- An empty project. -/
def c4State : SyncState := { stories := [], nextId := 0, synced := 0 }

/-- One plain Jira feed item. -/
def c4JiraItem : JiraItem :=
  { title := "Guest Checkout", description := none, acceptanceCriteria := none
    priority := none, status := none }

/-- A Jira feed item whose title equals the duplicated local title of
cexState2. -/
def c4DupJira : JiraItem :=
  { title := "guest checkout", description := none, acceptanceCriteria := none
    priority := none, status := none }

/-- A test-case table holding one prior row of story 7 in project p1. -/
def c3Db : List TestCaseRow :=
  [{ project_id := "p1", user_story_id := some 7, title := "Old case"
     description := "", steps := "", expected_result := "", priority := "medium"
     status := "not-run" }]

/-- One generated test case as the completion response delivers it. -/
def c3Gen : List GenTC :=
  [{ title := some "New case", name := none, description := none, steps := none
     expectedResult := none, expected := none, priority := none }]

/-- A test-case table holding one row of story 9 in project p2. -/
def c8Db : List TestCaseRow :=
  [{ project_id := "p2", user_story_id := some 9, title := "Kept case"
     description := "", steps := "", expected_result := "", priority := "high"
     status := "passed" }]

/-- One posted test case with a passed status. -/
def c5List : List ReportTC :=
  [{ title := "t1", status := "passed", priority := "high" }]

/-! ## Helper lemmas on the synchronizer -/

/-- The one-step equation of syncFeed. -/
theorem syncFeed_cons (proj : String) (st : SyncState) (it : FeedItem) (rest : List FeedItem) :
    syncFeed proj st (it :: rest) = syncFeed proj (syncStep proj st it) rest := rfl

/-- Processing a concatenated feed is processing the two halves in order. -/
theorem syncFeed_append (proj : String) (a b : List FeedItem) (st : SyncState) :
    syncFeed proj st (a ++ b) = syncFeed proj (syncFeed proj st a) b := by
  induction a generalizing st with
  | nil => rfl
  | cons it rest ih => simpa [syncFeed_cons] using ih (syncStep proj st it)

/-- The .single() lookup yields a row exactly when one story of the project
carries the title. -/
theorem findSingle_isSome_iff (l : List Story) (proj t : String) :
    (findSingle l proj t).isSome = true ↔ matchCount l proj t = 1 := by
  unfold findSingle matchCount
  rw [List.countP_eq_length_filter]
  cases hf : l.filter (storyMatches proj t) with
  | nil => simp
  | cons a rest =>
    cases rest with
    | nil => simp
    | cons b rest2 => simp

/-- A map that preserves project and title preserves every title count. -/
theorem matchCount_map_preserving (l : List Story) (f : Story → Story) (proj t : String)
    (hf : ∀ s, (f s).project_id = s.project_id ∧ (f s).title = s.title) :
    matchCount (l.map f) proj t = matchCount l proj t := by
  unfold matchCount
  rw [List.countP_map]
  apply List.countP_congr
  intro s _
  simp [Function.comp, storyMatches, (hf s).1, (hf s).2]

/-- The in-place update of the matched row preserves project and title. -/
theorem update_preserves_key (ex : Story) (it : FeedItem) :
    ∀ s : Story,
      ((if s.id == ex.id then updateStoryFields s it else s).project_id = s.project_id)
        ∧ ((if s.id == ex.id then updateStoryFields s it else s).title = s.title) := by
  intro s
  cases h : s.id == ex.id <;> simp [h, updateStoryFields]

/-- Appending the inserted row raises exactly the count of the inserted
title in the target project. -/
theorem matchCount_insert (l : List Story) (proj : String) (fresh : Nat) (it : FeedItem)
    (t : String) :
    matchCount (l ++ [insertStoryRow proj fresh it]) proj t
      = matchCount l proj t + (if it.title = t then 1 else 0) := by
  unfold matchCount
  rw [List.countP_append]
  congr 1
  by_cases h : it.title = t <;>
    simp [List.countP_cons, storyMatches, insertStoryRow, h]

/-- How one sync step changes a title count: an exactly-one match updates in
place and preserves every count; anything else inserts the fetched title. -/
theorem syncStep_matchCount (proj : String) (st : SyncState) (it : FeedItem) (t : String) :
    matchCount (syncStep proj st it).stories proj t =
      if matchCount st.stories proj it.title = 1
      then matchCount st.stories proj t
      else matchCount st.stories proj t + (if it.title = t then 1 else 0) := by
  unfold syncStep
  cases hfs : findSingle st.stories proj it.title with
  | some ex =>
    have h1 : matchCount st.stories proj it.title = 1 :=
      (findSingle_isSome_iff _ _ _).mp (by rw [hfs]; rfl)
    rw [if_pos h1]
    exact matchCount_map_preserving st.stories _ proj t (update_preserves_key ex it)
  | none =>
    have h1 : matchCount st.stories proj it.title ≠ 1 := by
      intro hc
      have h2 := (findSingle_isSome_iff st.stories proj it.title).mpr hc
      rw [hfs] at h2
      cases h2
    simp [h1, matchCount_insert]

/-- How one sync step changes the table size: an exactly-one match keeps it,
anything else inserts one row. -/
theorem syncStep_length (proj : String) (st : SyncState) (it : FeedItem) :
    (syncStep proj st it).stories.length =
      if matchCount st.stories proj it.title = 1
      then st.stories.length
      else st.stories.length + 1 := by
  unfold syncStep
  cases hfs : findSingle st.stories proj it.title with
  | some ex =>
    have h1 : matchCount st.stories proj it.title = 1 :=
      (findSingle_isSome_iff _ _ _).mp (by rw [hfs]; rfl)
    simp [h1]
  | none =>
    have h1 : matchCount st.stories proj it.title ≠ 1 := by
      intro hc
      have h2 := (findSingle_isSome_iff st.stories proj it.title).mpr hc
      rw [hfs] at h2
      cases h2
    simp [h1]

/-- After one run over a feed whose titles each match at most one existing
story, every fetched title matches exactly one story, and a title that
already matched exactly one still does. -/
theorem syncFeed_establishes_unique (proj : String) :
    ∀ (feed : List FeedItem) (st : SyncState),
      (∀ it ∈ feed, matchCount st.stories proj it.title ≤ 1) →
      (∀ it ∈ feed, matchCount (syncFeed proj st feed).stories proj it.title = 1)
        ∧ (∀ t, matchCount st.stories proj t = 1 →
            matchCount (syncFeed proj st feed).stories proj t = 1)
  | [], _, _ => ⟨fun it h => absurd h (List.not_mem_nil it), fun _ h => h⟩
  | i :: rest, st, hpre => by
    have hle : matchCount st.stories proj i.title ≤ 1 := hpre i (List.mem_cons_self i rest)
    have hi1 : matchCount (syncStep proj st i).stories proj i.title = 1 := by
      rw [syncStep_matchCount]
      by_cases h : matchCount st.stories proj i.title = 1
      · simp [h]
      · have h0 : matchCount st.stories proj i.title = 0 := by omega
        simp [h, h0]
    have hpre1 : ∀ it ∈ rest, matchCount (syncStep proj st i).stories proj it.title ≤ 1 := by
      intro it hit
      rw [syncStep_matchCount]
      by_cases h : matchCount st.stories proj i.title = 1
      · simpa [h] using hpre it (List.mem_cons_of_mem i hit)
      · have h0 : matchCount st.stories proj i.title = 0 := by omega
        by_cases hth : i.title = it.title
        · rw [← hth]
          simp [h, h0]
        · simpa [h, hth] using hpre it (List.mem_cons_of_mem i hit)
    have hpres1 : ∀ t, matchCount st.stories proj t = 1 →
        matchCount (syncStep proj st i).stories proj t = 1 := by
      intro t ht
      rw [syncStep_matchCount]
      by_cases h : matchCount st.stories proj i.title = 1
      · simpa [h] using ht
      · have h0 : matchCount st.stories proj i.title = 0 := by omega
        by_cases hth : i.title = t
        · rw [hth] at h0
          rw [h0] at ht
          cases ht
        · simpa [h, hth] using ht
    have ih := syncFeed_establishes_unique proj rest (syncStep proj st i) hpre1
    refine ⟨?_, ?_⟩
    · intro it hit
      rcases List.mem_cons.mp hit with rfl | hmem
      · exact ih.2 it.title hi1
      · exact ih.1 it hmem
    · intro t ht
      exact ih.2 t (hpres1 t ht)

/-- A run over a feed whose titles each match exactly one existing story is
updates only: the table size is unchanged. -/
theorem syncFeed_all_matched_length (proj : String) :
    ∀ (feed : List FeedItem) (st : SyncState),
      (∀ it ∈ feed, matchCount st.stories proj it.title = 1) →
      (syncFeed proj st feed).stories.length = st.stories.length
  | [], _, _ => rfl
  | i :: rest, st, h => by
    have hi := h i (List.mem_cons_self i rest)
    have hstep : (syncStep proj st i).stories.length = st.stories.length := by
      rw [syncStep_length]
      simp [hi]
    have hpre : ∀ it ∈ rest, matchCount (syncStep proj st i).stories proj it.title = 1 := by
      intro it hit
      rw [syncStep_matchCount]
      simpa [hi] using h it (List.mem_cons_of_mem i hit)
    calc (syncFeed proj st (i :: rest)).stories.length
        = (syncFeed proj (syncStep proj st i) rest).stories.length := rfl
      _ = (syncStep proj st i).stories.length :=
          syncFeed_all_matched_length proj rest (syncStep proj st i) hpre
      _ = st.stories.length := hstep

/-- A run with both providers succeeding is one pass over the concatenated
feeds. -/
theorem syncFromIntegrations_ok_ok (proj : String) (st : SyncState)
    (jf : List JiraItem) (af : List AzureItem) :
    syncFromIntegrations proj st (some (Except.ok jf)) (some (Except.ok af))
      = syncFeed proj st (jf.map FeedItem.jira ++ af.map FeedItem.azure) := by
  rw [syncFeed_append]
  rfl

/-! ## Helper lemmas on the rich-text unwrapping -/

mutual

/-- The pushed parts of one node are exactly the non-empty-text leaves of the
amended reading. -/
theorem extractParts_eq_amended : ∀ d : ADF, extractParts d = amendedLeafTexts d
  | .strVal s => by simp [extractParts, amendedLeafTexts]
  | .node ty text children => by
    have ih := extractPartsList_eq_amended children
    cases text with
    | none => simp [extractParts, amendedLeafTexts, truthyStr, ih]
    | some t =>
      by_cases h1 : ty = some "text"
      · by_cases h2 : t = ""
        · subst h1; subst h2
          simp [extractParts, amendedLeafTexts, truthyStr, ih]
        · subst h1
          simp [extractParts, amendedLeafTexts, truthyStr, h2]
      · simp [extractParts, amendedLeafTexts, truthyStr, h1, ih]

/-- extractParts_eq_amended over a content array. -/
theorem extractPartsList_eq_amended : ∀ l : List ADF,
    extractPartsList l = amendedLeafTextsList l
  | [] => by simp [extractPartsList, amendedLeafTextsList]
  | n :: rest => by
    simp [extractPartsList, amendedLeafTextsList, extractParts_eq_amended n,
      extractPartsList_eq_amended rest]

end

/-! ## The claims -/

/-- C1, counterexample. The spec says a fetched item updates an existing
story exactly when the titles are equal case-insensitively. With one local
story titled "guest checkout", the fetched title "Guest Checkout" is equal
under case-insensitive comparison, yet the sync step inserts a second row
instead of updating; and with two local stories both titled exactly "guest
checkout", a fetched item with that very title also inserts instead of
updating, because the single-row lookup reports an error on two matches. -/
theorem C1_counterexample_case_insensitive_match :
    caseInsensitiveEq "Guest Checkout" "guest checkout" = true
      ∧ (syncStep "p1" cexState1 cexItemUpper).stories.length
          = cexState1.stories.length + 1
      ∧ (syncStep "p1" cexState2 cexItemExact).stories.length
          = cexState2.stories.length + 1 := by
  refine ⟨by decide, by decide, by decide⟩

/-- C1, amended: during synchronization a fetched item updates an existing
local story in place (rather than inserting a new row) if and only if
exactly one existing story of the target project carries a title exactly
equal, case-sensitively, to the fetched title. -/
theorem C1_amended_title_match (proj : String) (st : SyncState) (it : FeedItem) :
    (syncStep proj st it).stories.length = st.stories.length
      ↔ matchCount st.stories proj it.title = 1 := by
  rw [syncStep_length]
  by_cases h : matchCount st.stories proj it.title = 1
  · simp [h]
  · simp only [if_neg h]
    constructor
    · intro hlen
      omega
    · intro hc
      exact absurd hc h

/-- C2: the claim says every newly persisted generated test-case row is
stamped with the not-yet-executed status "not-run". The row the source
builds carries the status "draft" instead, a value outside the status
enumeration the same file declares for test cases. -/
theorem C2_generated_row_status_is_draft (projectId : String) (storyId : Nat) (tc : GenTC) :
    (toInsertRow projectId storyId tc).status = "draft"
      ∧ (toInsertRow projectId storyId tc).status ≠ "not-run"
      ∧ (toInsertRow projectId storyId tc).status ∉ testCaseStatusValues := by
  refine ⟨rfl, ?_, ?_⟩
  · show ("draft" : String) ≠ "not-run"
    decide
  · show ("draft" : String) ∉ testCaseStatusValues
    decide

/-- C3: regeneration is a full replace. On a success response, the rows of
the (project, story) pair afterwards are exactly the newly generated rows in
order, and every row of another story or project is kept unchanged; in
particular no prior row of the pair survives, whatever its title. -/
theorem C3_regeneration_full_replace (db : List TestCaseRow) (projectId : String)
    (storyId : Nat) (tcs : List GenTC) (resp : GenResponse)
    (h : resp = GenResponse.ok tcs) :
    ((persistGenerated db projectId storyId resp).filter (belongsToStory projectId storyId)
        = tcs.map (toInsertRow projectId storyId))
      ∧ ((persistGenerated db projectId storyId resp).filter
            (fun r => !belongsToStory projectId storyId r)
          = db.filter fun r => !belongsToStory projectId storyId r) := by
  subst h
  unfold persistGenerated
  have hnew : ∀ r ∈ tcs.map (toInsertRow projectId storyId),
      belongsToStory projectId storyId r = true := by
    intro r hr
    obtain ⟨tc, _, rfl⟩ := List.mem_map.mp hr
    simp [belongsToStory, toInsertRow]
  have hold : ∀ r ∈ db.filter (fun r => !belongsToStory projectId storyId r),
      ¬ belongsToStory projectId storyId r = true := by
    intro r hr
    have hp := List.of_mem_filter hr
    simp only [Bool.not_eq_true'] at hp
    simp [hp]
  constructor
  · rw [List.filter_append]
    have h1 : (db.filter fun r => !belongsToStory projectId storyId r).filter
        (belongsToStory projectId storyId) = [] := by
      rw [List.filter_eq_nil_iff]
      exact hold
    have h2 : (tcs.map (toInsertRow projectId storyId)).filter
        (belongsToStory projectId storyId) = tcs.map (toInsertRow projectId storyId) :=
      List.filter_eq_self.mpr hnew
    rw [h1, h2, List.nil_append]
  · rw [List.filter_append]
    have h1 : (db.filter fun r => !belongsToStory projectId storyId r).filter
        (fun r => !belongsToStory projectId storyId r)
        = db.filter fun r => !belongsToStory projectId storyId r := by
      apply List.filter_eq_self.mpr
      intro r hr
      simpa using hold r hr
    have h2 : (tcs.map (toInsertRow projectId storyId)).filter
        (fun r => !belongsToStory projectId storyId r) = [] := by
      rw [List.filter_eq_nil_iff]
      intro r hr
      simp [hnew r hr]
    rw [h1, h2, List.append_nil]

/-- C3, witness: one prior row of story 7 in project p1 and a success
response of one generated case; afterwards the story holds exactly the new
row and the table outside the story is untouched. -/
theorem C3_regeneration_witness :
    ((persistGenerated c3Db "p1" 7 (GenResponse.ok c3Gen)).filter (belongsToStory "p1" 7)
        = c3Gen.map (toInsertRow "p1" 7))
      ∧ ((persistGenerated c3Db "p1" 7 (GenResponse.ok c3Gen)).filter
            (fun r => !belongsToStory "p1" 7 r)
          = c3Db.filter fun r => !belongsToStory "p1" 7 r) :=
  C3_regeneration_full_replace c3Db "p1" 7 c3Gen (GenResponse.ok c3Gen) rfl

/-- C4, counterexample. The claim says a second synchronization run against
the unchanged feed inserts zero net new rows. Starting from a project
already holding two stories with the identical title "guest checkout" (a
state the store permits), a one-item feed with that title inserts a row on
the first run and inserts again on the second run: the single-row lookup
errors on the multiple matches every time. -/
theorem C4_counterexample_duplicate_titles :
    (syncFromIntegrations "p1" cexState2 (some (Except.ok [c4DupJira])) none).stories.length = 3
      ∧ (syncFromIntegrations "p1"
            (syncFromIntegrations "p1" cexState2 (some (Except.ok [c4DupJira])) none)
            (some (Except.ok [c4DupJira])) none).stories.length = 4 := by
  refine ⟨by decide, by decide⟩

/-- C4, amended: synchronization is idempotent under a stable feed provided
no fetched title matches two or more existing stories of the project at the
start. Under that precondition a second run over the same two provider
feeds performs updates only: the story table size does not change. -/
theorem C4_amended_second_sync_inserts_nothing (proj : String) (st : SyncState)
    (jiraFeed : List JiraItem) (azureFeed : List AzureItem)
    (hpre : ∀ it ∈ jiraFeed.map FeedItem.jira ++ azureFeed.map FeedItem.azure,
        matchCount st.stories proj it.title ≤ 1) :
    (syncFromIntegrations proj
        (syncFromIntegrations proj st (some (Except.ok jiraFeed)) (some (Except.ok azureFeed)))
        (some (Except.ok jiraFeed)) (some (Except.ok azureFeed))).stories.length
      = (syncFromIntegrations proj st (some (Except.ok jiraFeed))
          (some (Except.ok azureFeed))).stories.length := by
  rw [syncFromIntegrations_ok_ok, syncFromIntegrations_ok_ok]
  obtain ⟨h1, _⟩ := syncFeed_establishes_unique proj
    (jiraFeed.map FeedItem.jira ++ azureFeed.map FeedItem.azure) st hpre
  exact syncFeed_all_matched_length proj _ _ h1

/-- C4, witness: an empty project synchronized twice against a stable
one-item Jira feed; the second run leaves the story count at one. -/
theorem C4_idempotence_witness :
    (syncFromIntegrations "p1"
        (syncFromIntegrations "p1" c4State (some (Except.ok [c4JiraItem])) (some (Except.ok [])))
        (some (Except.ok [c4JiraItem])) (some (Except.ok []))).stories.length
      = (syncFromIntegrations "p1" c4State (some (Except.ok [c4JiraItem]))
          (some (Except.ok []))).stories.length :=
  C4_amended_second_sync_inserts_nothing "p1" c4State [c4JiraItem] []
    (by intro it _; simp [c4State, matchCount])

/-- C5, counterexample. The claim says an empty test-case list yields a pass
rate of exactly 0, not an error; the handler instead rejects an empty list
with a validation error before any statistic is computed, while the formula
the claim quotes would indeed give 0. -/
theorem C5_counterexample_empty_list_is_rejected :
    generateTestReport [] = Except.error "Test cases array is required"
      ∧ specPassRate 0 0 = 0 := by
  refine ⟨rfl, by simp [specPassRate]⟩

/-- C5, amended: whenever the handler returns statistics (which it does
exactly for a non-empty list of at most 200 test cases), the pass rate
equals passed over total times 100 rounded to one decimal place; an empty
list never reaches the statistics, being rejected by input validation with
an error, so the total-zero guard of the formula is unreachable there. -/
theorem C5_pass_rate_amended (testCases : List ReportTC) (stats : ReportStats)
    (h : generateTestReport testCases = Except.ok stats) :
    stats.passRate = specPassRate stats.passedTests stats.totalTests
      ∧ stats.totalTests = testCases.length
      ∧ stats.passedTests = (testCases.filter fun tc => tc.status == "passed").length := by
  unfold generateTestReport at h
  by_cases h0 : testCases.length = 0
  · rw [if_pos h0] at h
    cases h
  · rw [if_neg h0] at h
    by_cases h200 : testCases.length > 200
    · rw [if_pos h200] at h
      cases h
    · rw [if_neg h200] at h
      injection h with h
      subst h
      refine ⟨?_, rfl, rfl⟩
      show (if testCases.length > 0
            then toFixed1 (((testCases.filter fun tc => tc.status == "passed").length : ℚ)
              / (testCases.length : ℚ) * 100)
            else 0)
          = if testCases.length = 0 then 0
            else ((round (((testCases.filter fun tc => tc.status == "passed").length : ℚ)
              / (testCases.length : ℚ) * 100 * 10) : ℤ) : ℚ) / 10
      rw [if_pos (Nat.pos_of_ne_zero h0), if_neg h0]
      rfl

/-- C5, witness: one passed test case; the returned pass rate equals the
rounded formula. -/
theorem C5_pass_rate_witness :
    (reportStatistics c5List).passRate
        = specPassRate (reportStatistics c5List).passedTests (reportStatistics c5List).totalTests
      ∧ (reportStatistics c5List).totalTests = c5List.length
      ∧ (reportStatistics c5List).passedTests
          = (c5List.filter fun tc => tc.status == "passed").length :=
  C5_pass_rate_amended c5List (reportStatistics c5List) rfl

/-- C6, counterexample. The claim says the extracted text of a document of
text-leaf nodes equals the leaf texts joined by single spaces and trimmed.
For the document holding one text leaf whose text is a single space, that
formula gives the empty string, but the source returns the placeholder. -/
theorem C6_counterexample_whitespace_leaf :
    extractTextFromJiraContent
        (some (ADF.node none none [ADF.node (some "text") (some " ") []])) = noDescription
      ∧ claimExtractedText [ADF.node (some "text") (some " ") []] = ""
      ∧ noDescription ≠ "" := by
  have h1 : extractPartsList [ADF.node (some "text") (some " ") []] = [" "] := by
    simp [extractPartsList, extractParts, truthyStr]
  have h2 : claimLeafTextsList [ADF.node (some "text") (some " ") []] = [" "] := by
    simp [claimLeafTextsList, claimLeafTexts]
  refine ⟨?_, ?_, by decide⟩
  · simp only [extractTextFromJiraContent, h1]
    decide
  · unfold claimExtractedText
    rw [h2]
    decide

/-- C6, amended: the unwrapping returns a plain string unchanged and the
placeholder on a null input; on a document it returns the texts of the text
leaves with non-empty text, joined by single spaces and trimmed, except that
an empty result is replaced by the placeholder; every other shape yields the
placeholder. -/
theorem C6_amended_extraction (d : Option ADF) :
    extractTextFromJiraContent d = specAmendedExtract d := by
  match d with
  | none => rfl
  | some (.strVal s) => rfl
  | some (.node ty text children) =>
    simp only [extractTextFromJiraContent, specAmendedExtract,
      extractPartsList_eq_amended children]
    by_cases h : jsTrim (joinSep " " (amendedLeafTextsList children)) = ""
    · simp [h]
    · simp [h]

/-- C7: the work-item priority mapping sends 1 to high, 2 to medium, 3 to
low, and every other value, a missing field included, to medium. -/
theorem C7_work_item_priority_mapping :
    mapWorkItemPriority (some 1) = "high"
      ∧ mapWorkItemPriority (some 2) = "medium"
      ∧ mapWorkItemPriority (some 3) = "low"
      ∧ mapWorkItemPriority none = "medium"
      ∧ ∀ p : Int, p ≠ 1 → p ≠ 2 → p ≠ 3 → mapWorkItemPriority (some p) = "medium" := by
  refine ⟨rfl, rfl, rfl, rfl, ?_⟩
  intro p h1 h2 h3
  by_cases h0 : p = 0
  · simp [mapWorkItemPriority, h0]
  · simp [mapWorkItemPriority, h0, h1, h2, h3]

/-- C8: when the completion text does not parse as a JSON array (a parse
throw, or any parsed non-array value, on which the map call throws into the
same catch), the edge function answers the parse-failure response that
surfaces the raw text, and the client write-back leaves the test-case table
untouched: no row is persisted. -/
theorem C8_parse_failure_is_terminal (content : String) (parsed : Option Json)
    (db : List TestCaseRow) (projectId : String) (storyId : Nat)
    (h : ∀ elems : List Json, parsed ≠ some (Json.arr elems)) :
    handleParsedCompletion content parsed = GenResponse.parseFailure content
      ∧ persistGenerated db projectId storyId (handleParsedCompletion content parsed) = db := by
  have hh : handleParsedCompletion content parsed = GenResponse.parseFailure content := by
    cases parsed with
    | none => rfl
    | some j =>
      cases j with
      | arr elems => exact absurd rfl (h elems)
      | null => rfl
      | bool b => rfl
      | num n => rfl
      | str s => rfl
      | obj fields => rfl
  rw [hh]
  exact ⟨rfl, rfl⟩

/-- C8, witness: a completion text whose parse throws; the response carries
the raw text and a table holding one row of another story is unchanged. -/
theorem C8_parse_failure_witness :
    handleParsedCompletion "not a json array" none
        = GenResponse.parseFailure "not a json array"
      ∧ persistGenerated c8Db "p2" 9 (handleParsedCompletion "not a json array" none) = c8Db :=
  C8_parse_failure_is_terminal "not a json array" none c8Db "p2" 9
    (fun _ h => Option.noConfusion h)

/-- C9: a provider whose call fails is caught and skipped, leaving the state
exactly as if that provider were not configured, so the other provider is
still processed; and with the other provider succeeding, the reported
aggregate count is the count its feed produces. -/
theorem C9_provider_failure_is_skipped (proj : String) (st : SyncState)
    (jiraResult : Option (Except Unit (List JiraItem)))
    (azureResult : Option (Except Unit (List AzureItem)))
    (azureFeed : List AzureItem) :
    syncFromIntegrations proj st (some (Except.error ())) azureResult
        = syncFromIntegrations proj st none azureResult
      ∧ syncFromIntegrations proj st jiraResult (some (Except.error ()))
          = syncFromIntegrations proj st jiraResult none
      ∧ (syncFromIntegrations proj st (some (Except.error ())) (some (Except.ok azureFeed))).synced
          = (syncFeed proj st (azureFeed.map FeedItem.azure)).synced := by
  refine ⟨rfl, ?_, rfl⟩
  cases jiraResult with
  | none => rfl
  | some r =>
    cases r with
    | ok feed => rfl
    | error e => rfl

/-- C10: deleting a user story first deletes every test-case row whose
user_story_id references it (while the story rows are still untouched), then
deletes the story row; afterwards no test case references the deleted story,
the story row is gone, and every non-referencing test case is kept. -/
theorem C10_delete_story_cascades (db : AppDB) (storyId : Nat) :
    (∀ r ∈ (deleteUserStory db storyId).testCases, r.user_story_id ≠ some storyId)
      ∧ (∀ s ∈ (deleteUserStory db storyId).userStories, s.id ≠ storyId)
      ∧ (deleteTestCasesForStory db storyId).userStories = db.userStories
      ∧ (deleteUserStory db storyId).testCases
          = db.testCases.filter fun r => !(r.user_story_id == some storyId) := by
  refine ⟨?_, ?_, rfl, rfl⟩
  · intro r hr
    have e : (deleteUserStory db storyId).testCases
        = db.testCases.filter (fun r => !(r.user_story_id == some storyId)) := rfl
    rw [e] at hr
    have hp := List.of_mem_filter hr
    simpa [Bool.not_eq_true'] using hp
  · intro s hs
    have e : (deleteUserStory db storyId).userStories
        = (deleteTestCasesForStory db storyId).userStories.filter
            (fun s => !(s.id == storyId)) := rfl
    rw [e] at hs
    have hp := List.of_mem_filter hs
    simpa [Bool.not_eq_true'] using hp

end TestMgmt
